import Mathlib

/-!
Verification of the HITL review-case lifecycle engine (reference service).

The definitions below are a shallow embedding of the Python reference
implementation in `src/implementations/reference-service/python/server.py`:
lifecycle state machine, revision tags (ETags), token utilities, fixed-window
rate limiter, expiration firing, and the request handlers for submitting a
response and polling status.  Mutation of the per-case record is modelled by
explicit state passing; a Python `raise` is modelled with `Except`; the wall
clock is an explicit argument.  Timestamps are opaque ISO strings; JSON
payloads that no property inspects are carried as opaque strings.
-/

namespace HITL

/-- The six lifecycle states (keys of `VALID_TRANSITIONS` in server.py). -/
inductive Status where
  | pending
  | opened
  | in_progress
  | completed
  | expired
  | cancelled
deriving DecidableEq, Repr, Fintype

/-- The wire string of each status, as it appears in the Python dict keys. -/
def statusStr : Status → String
  | .pending => "pending"
  | .opened => "opened"
  | .in_progress => "in_progress"
  | .completed => "completed"
  | .expired => "expired"
  | .cancelled => "cancelled"

/-- The transition table `VALID_TRANSITIONS` (server.py lines 60-67). -/
def VALID_TRANSITIONS : Status → List Status
  | .pending => [.opened, .expired, .cancelled]
  | .opened => [.in_progress, .completed, .expired, .cancelled]
  | .in_progress => [.completed, .expired, .cancelled]
  | .completed => []
  | .expired => []
  | .cancelled => []

/-- Membership in the tuple `("completed", "expired", "cancelled")`
(server.py line 79). -/
def isTerminal (s : Status) : Bool :=
  s ∈ [Status.completed, Status.expired, Status.cancelled]

/-- Decimal digit characters of a natural number, most significant first:
the characters Python produces when formatting an `int` inside an f-string.
Structural recursion on a fuel bound (any `fuel ≥ n` yields the digits). -/
def natReprAux : Nat → Nat → List Char
  | 0, _ => []
  | fuel + 1, n =>
    if n = 0 then [] else natReprAux fuel (n / 10) ++ [Nat.digitChar (n % 10)]

/-- Decimal rendering of a natural number, as Python `str(n)` / `f"{n}"`. -/
def natRepr (n : Nat) : String :=
  if n = 0 then "0" else String.mk (natReprAux n n)

/-- The revision tag computed on every transition (server.py line 77): the
letter v, the decimal version, a dash and the status name, wrapped in double
quotes.  The initial tag built at creation (line 167) has the same shape. -/
def etagOf (version : Nat) (s : Status) : String :=
  "\"v" ++ natRepr version ++ "-" ++ statusStr s ++ "\""

/-- The structured outcome `{"action": ..., "data": ...}` written by
`submit_response`; the `data` JSON payload is carried opaquely. -/
structure ResultVal where
  action : String
  data : String
deriving DecidableEq, Repr

/-- The responder identity `{"name": ..., "email": ...}`. -/
structure Responder where
  name : String
  email : String
deriving DecidableEq, Repr

/-- A review-case record: the dict built by `create_demo` (server.py
lines 163-169) plus the timestamp keys `transition` adds dynamically. -/
structure ReviewCase where
  case_id : String
  type : String
  status : Status
  prompt : String
  token_hash : List Nat
  context : String
  created_at : String
  expires_at : String
  default_action : String
  version : Nat
  etag : String
  result : Option ResultVal
  responded_by : Option Responder
  opened_at : Option String := none
  completed_at : Option String := none
  expired_at : Option String := none
  cancelled_at : Option String := none
deriving DecidableEq, Repr

/-- The payload of the `ValueError` raised by `transition`: the attempted
`(from, to)` pair (server.py line 73). -/
structure TransErr where
  src : Status
  tgt : Status
deriving DecidableEq, Repr

/-- Sets the `f"{new_status}_at"` timestamp key (server.py line 75). -/
def setStampAt (rc : ReviewCase) (ns : Status) (now : String) : ReviewCase :=
  match ns with
  | .opened => { rc with opened_at := some now }
  | .completed => { rc with completed_at := some now }
  | .expired => { rc with expired_at := some now }
  | .cancelled => { rc with cancelled_at := some now }
  | _ => rc

/-- The state-machine operation `transition(rc, new_status)` (server.py
lines 70-77).  The Python code raises before touching any field, so failure
returns the error payload and no record; on success it sets the status and
timestamp, increments `version`, and recomputes the etag.  The SSE fan-out
(lines 82-88) is pure output and is not part of the record state; the
rate-limit eviction on terminal states (lines 79-80) is modelled where the
rate-limit state is in scope. -/
def transition (now : String) (rc : ReviewCase) (ns : Status) :
    Except TransErr ReviewCase :=
  let allowed := VALID_TRANSITIONS rc.status
  if ns ∈ allowed then
    let rc := { rc with status := ns }
    let rc := setStampAt rc ns now
    let rc := { rc with version := rc.version + 1 }
    let rc := { rc with etag := etagOf rc.version ns }
    .ok rc
  else
    .error ⟨rc.status, ns⟩

/-- Iterated transitions: applies `transition` for each `(now, target)` pair
in order, failing if any single transition fails. -/
def runTransitions (rc : ReviewCase) : List (String × Status) → Option ReviewCase
  | [] => some rc
  | (now, ns) :: rest =>
    match transition now rc ns with
    | .ok rc1 => runTransitions rc1 rest
    | .error _ => none

/-! ### Rate limiter (server.py lines 57-58, 102-109) -/

/-- The constant `RATE_LIMIT = 60`. -/
def RATE_LIMIT : Int := 60

/-- One entry of the `rate_limits` dict: `{"count": ..., "reset_at": ...}`. -/
structure RLEntry where
  count : Nat
  reset_at : ℚ
deriving DecidableEq, Repr

/-- The dict returned by `check_rate_limit`:
`{"allowed": ..., "remaining": ...}`. -/
structure RLResult where
  allowed : Bool
  remaining : Int
deriving DecidableEq, Repr

/-- `check_rate_limit(case_id)` (server.py lines 102-109) for a single case:
the entry `rate_limits.get(case_id)` is the `Option RLEntry` argument, the
wall clock `time.time()` is `now`, and the updated entry stored back into
`rate_limits` is returned alongside the result dict. -/
def check_rate_limit (now : ℚ) (entry? : Option RLEntry) : RLEntry × RLResult :=
  let entry : RLEntry :=
    match entry? with
    | none => ⟨0, now + 60⟩
    | some e => if now > e.reset_at then ⟨0, now + 60⟩ else e
  let entry := { entry with count := entry.count + 1 }
  (entry, ⟨decide ((entry.count : Int) ≤ RATE_LIMIT),
           max 0 (RATE_LIMIT - (entry.count : Int))⟩)

/-- Runs `check_rate_limit` once per listed time, in order, threading the
per-case entry; returns the final entry and the result of the last call
(`none` when the list is empty). -/
def runChecks : List ℚ → Option RLEntry → Option RLEntry × Option RLResult
  | [], st => (st, none)
  | t :: ts, st =>
    let er := check_rate_limit t st
    let sr := runChecks ts (some er.1)
    (sr.1, some (sr.2.getD er.2))

/-! ### Token utilities (server.py lines 38-48)

`hash_token` is `hashlib.sha256(token.encode()).digest()`.  The SHA-256
compression itself is opaque to every property below, so the digest is a
parameter `digest : List Nat → List Nat` over UTF-8 byte strings; the
encoding step and the comparison are embedded concretely. -/

/-- The UTF-8 bytes of a string: `token.encode()` on its success path.
This is the byte content of `String.toUTF8`, kept as a plain list. -/
def utf8Bytes (s : String) : List Nat :=
  (s.data.flatMap String.utf8EncodeChar).map UInt8.toNat

/-- The exception a Python `str.encode()` can raise. -/
inductive PyErr where
  | unicodeEncodeError
deriving DecidableEq, Repr

/-- Python `token.encode()` with its exception surface: `str.encode("utf-8")`
raises `UnicodeEncodeError` exactly on code points in the surrogate range
`0xD800..0xDFFF`, and otherwise returns the UTF-8 bytes. -/
def pyEncode (s : String) : Except PyErr (List Nat) :=
  if s.data.all (fun c => c.toNat < 0xD800 || 0xE000 ≤ c.toNat) then
    .ok (utf8Bytes s)
  else
    .error .unicodeEncodeError

/-- `hmac.compare_digest(a, b)` on two byte strings: true exactly on equal
inputs (its constant-time execution is not observable in the embedding). -/
def compare_digest (a b : List Nat) : Bool :=
  a == b

/-- `hash_token(token)` (server.py lines 42-43): encode, then digest. -/
def hash_token (digest : List Nat → List Nat) (token : String) : List Nat :=
  digest (utf8Bytes token)

/-- `verify_token(token, stored_hash)` (server.py lines 46-48). -/
def verify_token (digest : List Nat → List Nat) (token : String)
    (stored_hash : List Nat) : Bool :=
  let candidate := hash_token digest token
  compare_digest candidate stored_hash

/-- `verify_token` with the exception surface of its `token.encode()` call
made explicit: an error value would mean the Python function raises. -/
def verify_token_run (digest : List Nat → List Nat) (token : String)
    (stored_hash : List Nat) : Except PyErr Bool := do
  let bytes ← pyEncode token
  let candidate := digest bytes
  return compare_digest candidate stored_hash

/-! ### Case creation (server.py lines 153-190) -/

/-- The record dict built by `create_demo` (server.py lines 163-169).
Identifier generation, sample contexts and the HTTP envelope are outside the
record state; the freshly minted token enters only as its digest. -/
def create_demo_record (case_id ty prompt : String) (token_hashv : List Nat)
    (context nowIso expiresIso : String) : ReviewCase :=
  { case_id := case_id
    type := ty
    status := .pending
    prompt := prompt
    token_hash := token_hashv
    context := context
    created_at := nowIso
    expires_at := expiresIso
    default_action := "skip"
    version := 1
    etag := "\"v1-pending\""
    result := none
    responded_by := none }

/-! ### Expiration firing (server.py lines 91-99) -/

/-- The body of `schedule_expiration` after its `await asyncio.sleep(delay)`:
looks up the case, and if it is still in a live state attempts the transition
to `expired`, swallowing the `ValueError`.  Returns the stored record after
the firing. -/
def schedule_expiration_fire (now : String) (rc? : Option ReviewCase) :
    Option ReviewCase :=
  match rc? with
  | none => none
  | some rc =>
    if rc.status ∈ [Status.pending, Status.opened, Status.in_progress] then
      match transition now rc .expired with
      | .ok rc1 => some rc1
      | .error _ => some rc
    else
      some rc

/-! ### Review page opening (server.py lines 193-220) -/

/-- The record mutation performed by the `review_page` handler after the 404
and token checks: a pending case transitions to opened, the `ValueError`
being swallowed; template rendering is outside the record state. -/
def review_open (now : String) (rc : ReviewCase) : ReviewCase :=
  if rc.status = .pending then
    match transition now rc .opened with
    | .ok rc1 => rc1
    | .error _ => rc
  else
    rc

/-! ### Response submission (server.py lines 223-243) -/

/-- The outcome of the `submit_response` handler.  `internalError` is the
`ValueError` escaping from `transition`, which FastAPI surfaces as an
unhandled 500. -/
inductive SubmitResult where
  | notFound
  | invalidToken
  | caseExpired
  | duplicateSubmission
  | missingAction
  | completedOk (case_id : String) (completed_at : Option String)
  | internalError (e : TransErr)
deriving DecidableEq, Repr

/-- The `submit_response` handler (server.py lines 223-243) for a single
case: the store lookup is the `Option ReviewCase` argument, and the record
as it is left in the store is returned alongside the HTTP outcome.  Note the
Python code writes `rc["result"]` and `rc["responded_by"]` into the stored
record before calling `transition`, so those writes persist even when the
transition raises. -/
def submit_response (digest : List Nat → List Nat) (now : String)
    (rc? : Option ReviewCase) (token : String) (action? : Option String)
    (dataJson : String) : SubmitResult × Option ReviewCase :=
  match rc? with
  | none => (.notFound, none)
  | some rc =>
    if ¬ verify_token digest token rc.token_hash then
      (.invalidToken, some rc)
    else if rc.status = .expired then
      (.caseExpired, some rc)
    else if rc.status = .completed then
      (.duplicateSubmission, some rc)
    else
      -- `action = body.get("action"); if not action:` — absent or empty is falsy
      match action? with
      | none => (.missingAction, some rc)
      | some action =>
        if action = "" then
          (.missingAction, some rc)
        else
          -- the store record is mutated in place before the transition call,
          -- so the error arm still holds the written result and responder
          match transition now
              { rc with
                result := some ⟨action, dataJson⟩
                responded_by := some ⟨"Demo User", "demo@example.com"⟩ }
              .completed with
          | .ok rc2 => (.completedOk rc2.case_id rc2.completed_at, some rc2)
          | .error e =>
            (.internalError e,
             some { rc with
                    result := some ⟨action, dataJson⟩
                    responded_by := some ⟨"Demo User", "demo@example.com"⟩ })

/-! ### Status polling (server.py lines 246-278) -/

/-- The response body assembled by `poll_status` on the 200 path
(server.py lines 265-274): an optional key is present exactly when the
corresponding record field is set (the stored timestamps are nonempty ISO
strings, so Python truthiness coincides with presence). -/
structure PollBody where
  status : Status
  case_id : String
  created_at : String
  expires_at : String
  opened_at : Option String
  completed_at : Option String
  expired_at : Option String
  cancelled_at : Option String
  result : Option ResultVal
  responded_by : Option Responder
  default_action : Option String
deriving DecidableEq, Repr

/-- Builds the 200 response body from the record (server.py lines 265-274):
`default_action` is included exactly when the status is `expired`. -/
def poll_body (rc : ReviewCase) : PollBody :=
  { status := rc.status
    case_id := rc.case_id
    created_at := rc.created_at
    expires_at := rc.expires_at
    opened_at := rc.opened_at
    completed_at := rc.completed_at
    expired_at := rc.expired_at
    cancelled_at := rc.cancelled_at
    result := rc.result
    responded_by := rc.responded_by
    default_action := if rc.status = .expired then some rc.default_action else none }

/-- The outcome of the `poll_status` handler: 404, 429, bodyless 304 with an
ETag header, or 200 with the full body and an ETag header. -/
inductive PollResult where
  | notFound
  | rateLimited
  | notModified (etagv : String)
  | ok (body : PollBody) (etagv : String)
deriving DecidableEq, Repr

/-- The conditional-read test `if inm and inm == rc["etag"]` (server.py
line 262): an absent or empty `If-None-Match` header is falsy. -/
def inm_matches (inm : Option String) (etagv : String) : Bool :=
  match inm with
  | none => false
  | some s => (!(s == "")) && (s == etagv)

/-- The `poll_status` handler (server.py lines 246-278) for a single case:
store lookup and rate-limit entry are explicit state, and the rate-limit
entry as left in `rate_limits` is returned alongside the outcome. -/
def poll_status (now : ℚ) (inm : Option String) (rc? : Option ReviewCase)
    (rl : Option RLEntry) : PollResult × Option RLEntry :=
  match rc? with
  | none => (.notFound, rl)
  | some rc =>
    let er := check_rate_limit now rl
    if ¬ er.2.allowed then
      (.rateLimited, some er.1)
    else if inm_matches inm rc.etag then
      (.notModified rc.etag, some er.1)
    else
      (.ok (poll_body rc) rc.etag, some er.1)

/-- The store-level view of `transition`: the record kept in `store` after
the call, together with the raised error, if any.  The Python `raise` fires
before any field is assigned, so on failure the stored record is the input
record itself. -/
def attempt_transition (now : String) (rc : ReviewCase) (ns : Status) :
    ReviewCase × Option TransErr :=
  match transition now rc ns with
  | .ok rc1 => (rc1, none)
  | .error e => (rc, some e)

/-- A concrete freshly created case used to instantiate theorems: the record
`create_demo` builds for a selection demo, with token `"tok"`. -/
def sampleCase : ReviewCase :=
  create_demo_record "review_1" "selection" "pick" (utf8Bytes "tok") "ctx"
    "2026-01-01T00:00:00" "2026-01-02T00:00:00"

/-! ### C1: invalid transitions are rejected without touching the record -/

/-- C1: for every record and every target status that is not a permitted
successor of the current status, `transition` reports the attempted
`(from, to)` pair and produces no updated record, so the stored record —
every field of it — is left unchanged. -/
theorem c1_invalid_transition_rejected (now : String) (rc : ReviewCase)
    (ns : Status) (h : ns ∉ VALID_TRANSITIONS rc.status) :
    transition now rc ns = .error ⟨rc.status, ns⟩ ∧
    attempt_transition now rc ns = (rc, some ⟨rc.status, ns⟩) := by
  have ht : transition now rc ns = .error ⟨rc.status, ns⟩ := by
    simp [transition, h]
  exact ⟨ht, by simp [attempt_transition, ht]⟩

/-- Witness for C1 at a concrete input: a fresh pending case may not jump
straight to `completed`. -/
theorem c1_invalid_transition_rejected_witness :
    Status.completed ∉ VALID_TRANSITIONS sampleCase.status ∧
    (transition "T" sampleCase .completed = .error ⟨sampleCase.status, .completed⟩ ∧
     attempt_transition "T" sampleCase .completed
       = (sampleCase, some ⟨sampleCase.status, .completed⟩)) :=
  ⟨by decide, c1_invalid_transition_rejected "T" sampleCase .completed (by decide)⟩

/-! ### C5 and C6: token verification -/

/-- C5: verifying a token against its own digest succeeds, and verifying any
other string against that digest fails whenever the two strings do not
collide under the digest.  Stated for an arbitrary digest function, hence in
particular for SHA-256. -/
theorem c5_verify_roundtrip (digest : List Nat → List Nat) (t : String) :
    verify_token digest t (hash_token digest t) = true ∧
    (∀ x : String, hash_token digest x ≠ hash_token digest t →
      verify_token digest x (hash_token digest t) = false) := by
  refine ⟨?_, ?_⟩
  · simp [verify_token, compare_digest]
  · intro x hx
    simpa [verify_token, compare_digest] using hx

/-- Witness for C5 at a concrete input: with the identity digest, token
`"a"` verifies against its own digest and `"b"` does not. -/
theorem c5_verify_roundtrip_witness :
    verify_token (fun bs => bs) "a" (hash_token (fun bs => bs) "a") = true ∧
    (hash_token (fun bs => bs) "b" ≠ hash_token (fun bs => bs) "a" ∧
     verify_token (fun bs => bs) "b" (hash_token (fun bs => bs) "a") = false) :=
  ⟨(c5_verify_roundtrip (fun bs => bs) "a").1,
   by decide,
   (c5_verify_roundtrip (fun bs => bs) "a").2 "b" (by decide)⟩

/-- Every Lean character is a Unicode scalar value, so it is never in the
surrogate range that makes Python `str.encode()` raise. -/
theorem char_not_surrogate (c : Char) :
    (decide (c.toNat < 0xD800) || decide (0xE000 ≤ c.toNat)) = true := by
  have h := c.valid
  have hnat : c.toNat = c.val.toNat := rfl
  rcases h with h | ⟨h1, _⟩
  · simp only [Bool.or_eq_true, decide_eq_true_eq]
    exact Or.inl (hnat ▸ h)
  · simp only [Bool.or_eq_true, decide_eq_true_eq]
    right
    omega

/-- The encoding step never raises on a transport-level string. -/
theorem pyEncode_total (s : String) : pyEncode s = .ok (utf8Bytes s) := by
  unfold pyEncode
  rw [if_pos]
  rw [List.all_eq_true]
  intro c _
  exact char_not_surrogate c

/-- C6: token verification is total on its string input: for every presented
token string and stored digest it returns a boolean — false on mismatch —
and never raises. -/
theorem c6_verify_total (digest : List Nat → List Nat) (t : String)
    (h : List Nat) :
    verify_token_run digest t h = .ok (verify_token digest t h) := by
  simp [verify_token_run, pyEncode_total, verify_token, hash_token]

/-! ### Basic facts about the transition operation -/

/-- Setting a timestamp key touches no other field. -/
theorem setStampAt_status (rc : ReviewCase) (ns : Status) (now : String) :
    (setStampAt rc ns now).status = rc.status := by
  cases ns <;> rfl

/-- Setting a timestamp key preserves the version field. -/
theorem setStampAt_version (rc : ReviewCase) (ns : Status) (now : String) :
    (setStampAt rc ns now).version = rc.version := by
  cases ns <;> rfl

/-- On the success path, `transition` yields exactly the record with the new
status, the stamped timestamp, the incremented version and the recomputed
tag. -/
theorem transition_ok_eq {now : String} {rc : ReviewCase} {ns : Status}
    (hm : ns ∈ VALID_TRANSITIONS rc.status) :
    transition now rc ns =
      .ok { setStampAt { rc with status := ns } ns now with
            version := (setStampAt { rc with status := ns } ns now).version + 1
            etag := etagOf ((setStampAt { rc with status := ns } ns now).version + 1) ns } := by
  simp [transition, hm]

/-- A transition only succeeds on a permitted `(from, to)` pair. -/
theorem transition_ok_mem {now : String} {rc rc' : ReviewCase} {ns : Status}
    (h : transition now rc ns = .ok rc') : ns ∈ VALID_TRANSITIONS rc.status := by
  by_cases hm : ns ∈ VALID_TRANSITIONS rc.status
  · exact hm
  · simp [transition, hm] at h

/-- A successful transition sets the status to the target. -/
theorem transition_ok_status {now : String} {rc rc' : ReviewCase} {ns : Status}
    (h : transition now rc ns = .ok rc') : rc'.status = ns := by
  have hm := transition_ok_mem h
  rw [transition_ok_eq hm] at h
  cases h1 : h.symm
  simp [setStampAt_status]

/-- A successful transition increments the version by exactly one. -/
theorem transition_ok_version {now : String} {rc rc' : ReviewCase} {ns : Status}
    (h : transition now rc ns = .ok rc') : rc'.version = rc.version + 1 := by
  have hm := transition_ok_mem h
  rw [transition_ok_eq hm] at h
  cases h1 : h.symm
  simp [setStampAt_version]

/-- A successful transition recomputes the revision tag from the new
(version, status) pair. -/
theorem transition_ok_etag {now : String} {rc rc' : ReviewCase} {ns : Status}
    (h : transition now rc ns = .ok rc') :
    rc'.etag = etagOf rc'.version rc'.status := by
  have hm := transition_ok_mem h
  rw [transition_ok_eq hm] at h
  cases h1 : h.symm
  simp [setStampAt_version, setStampAt_status]

/-- The record kept in the store by `submit_response` either keeps its
status, or was completed through a permitted transition. -/
theorem submit_record_status {digest : List Nat → List Nat} {now : String}
    {rc rc1 : ReviewCase} {token : String} {a : Option String} {d : String}
    {r : SubmitResult}
    (h : submit_response digest now (some rc) token a d = (r, some rc1)) :
    rc1.status = rc.status ∨
    (rc1.status = .completed ∧ Status.completed ∈ VALID_TRANSITIONS rc.status) := by
  unfold submit_response at h
  split at h
  next heq => cases heq
  next rc2 heq =>
    injection heq with heq
    subst heq
    split at h
    · rw [Prod.mk.injEq, Option.some.injEq] at h
      rw [← h.2]
      exact Or.inl rfl
    · split at h
      · rw [Prod.mk.injEq, Option.some.injEq] at h
        rw [← h.2]
        exact Or.inl rfl
      · split at h
        · rw [Prod.mk.injEq, Option.some.injEq] at h
          rw [← h.2]
          exact Or.inl rfl
        · split at h
          · rw [Prod.mk.injEq, Option.some.injEq] at h
            rw [← h.2]
            exact Or.inl rfl
          · split at h
            · rw [Prod.mk.injEq, Option.some.injEq] at h
              rw [← h.2]
              exact Or.inl rfl
            · split at h
              next rcb heq2 =>
                rw [Prod.mk.injEq, Option.some.injEq] at h
                rw [← h.2]
                have hmem := transition_ok_mem heq2
                have hst := transition_ok_status heq2
                exact Or.inr ⟨hst, hmem⟩
              next e heq2 =>
                rw [Prod.mk.injEq, Option.some.injEq] at h
                rw [← h.2]
                exact Or.inl rfl

/-! ### C4: terminal states are sinks -/

/-- A terminal case record used to instantiate theorems. -/
def completedCase : ReviewCase :=
  { sampleCase with
    status := .completed
    version := 3
    etag := "\"v3-completed\""
    opened_at := some "T1"
    completed_at := some "T2" }

/-- C4: the three terminal states have zero permitted outgoing transitions
(exhaustively over every target), and no record-mutating operation — the
state machine, a late firing of the expiration timer, the review-page
opening, or a response submission — ever changes the status of a record in
a terminal state. -/
theorem c4_terminal_states_sink :
    (∀ s, isTerminal s = true → VALID_TRANSITIONS s = []) ∧
    (∀ s t, isTerminal s = true → t ∉ VALID_TRANSITIONS s) ∧
    (∀ now rc ns, isTerminal rc.status = true →
      transition now rc ns = .error ⟨rc.status, ns⟩) ∧
    (∀ now rc, isTerminal rc.status = true →
      schedule_expiration_fire now (some rc) = some rc) ∧
    (∀ now rc, isTerminal rc.status = true → review_open now rc = rc) ∧
    (∀ digest now rc token a d r rc1, isTerminal rc.status = true →
      submit_response digest now (some rc) token a d = (r, some rc1) →
      rc1.status = rc.status) := by
  refine ⟨by decide, by decide, ?_, ?_, ?_, ?_⟩
  · intro now rc ns h
    have hv : VALID_TRANSITIONS rc.status = [] := by
      cases hst : rc.status <;> simp [hst, isTerminal] at h ⊢ <;> rfl
    simp [transition, hv]
  · intro now rc h
    have hlive : (rc.status ∈ [Status.pending, Status.opened, Status.in_progress]) = False := by
      cases hst : rc.status <;> simp [hst, isTerminal] at h ⊢
    simp [schedule_expiration_fire, hlive]
  · intro now rc h
    have hp : rc.status ≠ .pending := by
      cases hst : rc.status <;> simp [hst, isTerminal] at h ⊢
    simp [review_open, hp]
  · intro digest now rc token a d r rc1 hterm hsub
    rcases submit_record_status hsub with h1 | ⟨h1, h2⟩
    · exact h1
    · have hempty : VALID_TRANSITIONS rc.status = [] := by
        cases hst : rc.status <;> simp [hst, isTerminal] at hterm ⊢ <;> rfl
      rw [hempty] at h2
      cases h2

/-- Witness for C4 at a concrete input: a completed case rejects every
further transition and survives a late expiration firing unchanged. -/
theorem c4_terminal_states_sink_witness :
    isTerminal completedCase.status = true ∧
    transition "T9" completedCase .opened
      = .error ⟨completedCase.status, .opened⟩ ∧
    schedule_expiration_fire "T9" (some completedCase) = some completedCase ∧
    review_open "T9" completedCase = completedCase :=
  ⟨by decide,
   c4_terminal_states_sink.2.2.1 "T9" completedCase .opened (by decide),
   c4_terminal_states_sink.2.2.2.1 "T9" completedCase (by decide),
   c4_terminal_states_sink.2.2.2.2.1 "T9" completedCase (by decide)⟩

/-! ### C2: version accounting -/

/-- A sequence of successful transitions adds its length to the version. -/
theorem runTransitions_version :
    ∀ (steps : List (String × Status)) (rc rc' : ReviewCase),
      runTransitions rc steps = some rc' →
      rc'.version = rc.version + steps.length := by
  intro steps
  induction steps with
  | nil =>
    intro rc rc' h
    simp [runTransitions] at h
    simp [← h]
  | cons p rest ih =>
    intro rc rc' h
    obtain ⟨pn, ps⟩ := p
    unfold runTransitions at h
    cases htr : transition pn rc ps with
    | ok rc1 =>
      rw [htr] at h
      have h1 := transition_ok_version htr
      have h2 := ih rc1 rc' h
      simp [h2, h1]
      omega
    | error e =>
      rw [htr] at h
      simp at h

/-- `submit_response` leaves the version untouched unless it reports a
completed submission (in which case the increment came from `transition`). -/
theorem submit_record_version {digest : List Nat → List Nat} {now : String}
    {rc rc1 : ReviewCase} {token : String} {a : Option String} {d : String}
    {r : SubmitResult}
    (h : submit_response digest now (some rc) token a d = (r, some rc1))
    (hr : ∀ cid ca, r ≠ .completedOk cid ca) : rc1.version = rc.version := by
  unfold submit_response at h
  split at h
  next heq => cases heq
  next rc2 heq =>
    injection heq with heq
    subst heq
    split at h
    · rw [Prod.mk.injEq, Option.some.injEq] at h
      rw [← h.2]
    · split at h
      · rw [Prod.mk.injEq, Option.some.injEq] at h
        rw [← h.2]
      · split at h
        · rw [Prod.mk.injEq, Option.some.injEq] at h
          rw [← h.2]
        · split at h
          · rw [Prod.mk.injEq, Option.some.injEq] at h
            rw [← h.2]
          · split at h
            · rw [Prod.mk.injEq, Option.some.injEq] at h
              rw [← h.2]
            · split at h
              next rcb heq2 =>
                rw [Prod.mk.injEq] at h
                exact absurd h.1.symm (hr _ _)
              next e heq2 =>
                rw [Prod.mk.injEq, Option.some.injEq] at h
                rw [← h.2]

/-- C2: `version` is 1 at creation, every successful transition increments
it by exactly 1 (so after N successful transitions it equals 1 + N), and no
other operation changes it — in particular a submission that does not
complete the case leaves the version untouched. -/
theorem c2_version_counts :
    (∀ cid ty pr th ctx ca ea,
      (create_demo_record cid ty pr th ctx ca ea).version = 1) ∧
    (∀ now rc ns rc', transition now rc ns = .ok rc' →
      rc'.version = rc.version + 1) ∧
    (∀ steps rc rc', runTransitions rc steps = some rc' →
      rc'.version = rc.version + steps.length) ∧
    (∀ cid ty pr th ctx ca ea steps rc',
      runTransitions (create_demo_record cid ty pr th ctx ca ea) steps
        = some rc' →
      rc'.version = 1 + steps.length) ∧
    (∀ digest now rc token a d r rc1,
      submit_response digest now (some rc) token a d = (r, some rc1) →
      (∀ cid ca, r ≠ .completedOk cid ca) → rc1.version = rc.version) := by
  refine ⟨fun _ _ _ _ _ _ _ => rfl,
          fun _ _ _ _ h => transition_ok_version h,
          fun steps rc rc' h => runTransitions_version steps rc rc' h,
          ?_,
          fun _ _ _ _ _ _ _ _ h hr => submit_record_version h hr⟩
  intro cid ty pr th ctx ca ea steps rc' h
  have := runTransitions_version steps _ _ h
  simp [create_demo_record] at this
  omega

/-- Witness for C2 at a concrete input: a fresh case has version 1, and the
two-step run open-then-complete ends at version 3 = 1 + 2. -/
theorem c2_version_counts_witness :
    sampleCase.version = 1 ∧ completedCase.version = 1 + 2 :=
  ⟨c2_version_counts.1 "review_1" "selection" "pick" (utf8Bytes "tok") "ctx"
      "2026-01-01T00:00:00" "2026-01-02T00:00:00",
   c2_version_counts.2.2.2.1 "review_1" "selection" "pick" (utf8Bytes "tok")
      "ctx" "2026-01-01T00:00:00" "2026-01-02T00:00:00"
      [("T1", .opened), ("T2", .completed)] completedCase (by decide)⟩

/-- Within a live window, `check_rate_limit` keeps the window and increments
the counter. -/
theorem check_in_window {t : ℚ} {e : RLEntry} (h : ¬ t > e.reset_at) :
    check_rate_limit t (some e) =
      (⟨e.count + 1, e.reset_at⟩,
       ⟨decide (((e.count + 1 : Nat) : Int) ≤ RATE_LIMIT),
        max 0 (RATE_LIMIT - ((e.count + 1 : Nat) : Int))⟩) := by
  simp [check_rate_limit, h]

/-- Running a batch of checks whose times all fall inside the current window
adds the batch size to the counter, keeps the window boundary, and reports
the post-increment count in the last result. -/
theorem runChecks_in_window :
    ∀ (ts : List ℚ) (e : RLEntry), (∀ t ∈ ts, ¬ t > e.reset_at) →
      (runChecks ts (some e)).1 = some ⟨e.count + ts.length, e.reset_at⟩ ∧
      (ts ≠ [] → (runChecks ts (some e)).2 =
        some ⟨decide (((e.count + ts.length : Nat) : Int) ≤ RATE_LIMIT),
              max 0 (RATE_LIMIT - ((e.count + ts.length : Nat) : Int))⟩) := by
  intro ts
  induction ts with
  | nil => intro e h; simp [runChecks]
  | cons t ts ih =>
    intro e h
    have hne : ¬ t > e.reset_at := h t (by simp)
    have hrest : ∀ u ∈ ts, ¬ u > (⟨e.count + 1, e.reset_at⟩ : RLEntry).reset_at := by
      intro u hu
      exact h u (by simp [hu])
    obtain ⟨ih1, ih2⟩ := ih ⟨e.count + 1, e.reset_at⟩ hrest
    unfold runChecks
    rw [check_in_window hne]
    dsimp only []
    cases hts : ts with
    | nil =>
      subst hts
      simp [runChecks]
    | cons u us =>
      subst hts
      have ih2a := ih2 (by simp)
      constructor
      · rw [ih1, Option.some.injEq, RLEntry.mk.injEq]
        exact ⟨by simp; omega, rfl⟩
      · intro hne2
        rw [ih2a]
        simp only [Option.getD_some]
        rw [Option.some.injEq, RLResult.mk.injEq]
        have hAB : (((⟨e.count + 1, e.reset_at⟩ : RLEntry).count + (u :: us).length : Nat) : Int)
            = ((e.count + (t :: u :: us).length : Nat) : Int) := by
          simp only [List.length_cons]
          push_cast
          ring
        constructor
        · rw [decide_eq_decide, hAB]
        · rw [hAB]

/-- C7: with limit 60 and a 60-second window — a first check with no window
starts a fresh window and is allowed; 60 further checks within that window
make the 61st call return allowed = false with remaining = 0; a check after
the window has elapsed starts afresh and is allowed again; and in general
every check reports allowed = (count ≤ limit) and
remaining = max 0 (limit − count) for the post-increment count. -/
theorem c7_rate_limiter (t0 : ℚ) (ts : List ℚ) (t' : ℚ)
    (hlen : ts.length = 60) (hin : ∀ t ∈ ts, t ≤ t0 + 60)
    (hafter : t' > t0 + 60) :
    (∀ now e?, (check_rate_limit now e?).2 =
      ⟨decide (((check_rate_limit now e?).1.count : Int) ≤ RATE_LIMIT),
       max 0 (RATE_LIMIT - ((check_rate_limit now e?).1.count : Int))⟩) ∧
    (check_rate_limit t0 none).1 = ⟨1, t0 + 60⟩ ∧
    (check_rate_limit t0 none).2.allowed = true ∧
    (runChecks ts (some (check_rate_limit t0 none).1)).2 = some ⟨false, 0⟩ ∧
    (check_rate_limit t'
      (runChecks ts (some (check_rate_limit t0 none).1)).1).2.allowed = true := by
  have hfirst : (check_rate_limit t0 none).1 = ⟨1, t0 + 60⟩ := rfl
  have hwin : ∀ t ∈ ts, ¬ t > (⟨1, t0 + 60⟩ : RLEntry).reset_at := by
    intro t ht
    exact not_lt.mpr (hin t ht)
  obtain ⟨h1, h2⟩ := runChecks_in_window ts ⟨1, t0 + 60⟩ hwin
  have hne : ts ≠ [] := by
    intro hnil
    rw [hnil] at hlen
    simp at hlen
  have h2a := h2 hne
  rw [hlen] at h1 h2a
  refine ⟨fun now e? => rfl, hfirst, rfl, ?_, ?_⟩
  · rw [hfirst, h2a]
    dsimp only []
    decide
  · rw [hfirst, h1]
    simp [check_rate_limit, hafter, RATE_LIMIT]

/-- Witness for C7 at a concrete input: sixty-one calls inside the window
starting at time 0 (one at 0, sixty at 30) end rejected with remaining 0,
and a call at time 61 — after the window boundary 60 — is allowed again. -/
theorem c7_rate_limiter_witness :
    (runChecks (List.replicate 60 (30 : ℚ))
        (some (check_rate_limit 0 none).1)).2 = some ⟨false, 0⟩ ∧
    (check_rate_limit 61
        (runChecks (List.replicate 60 (30 : ℚ))
          (some (check_rate_limit 0 none).1)).1).2.allowed = true :=
  ⟨(c7_rate_limiter 0 (List.replicate 60 (30 : ℚ)) 61 (by simp)
      (fun t ht => by rw [List.eq_of_mem_replicate ht]; norm_num)
      (by norm_num)).2.2.2.1,
   (c7_rate_limiter 0 (List.replicate 60 (30 : ℚ)) 61 (by simp)
      (fun t ht => by rw [List.eq_of_mem_replicate ht]; norm_num)
      (by norm_num)).2.2.2.2⟩

/-- C8: on an existing case that is not rate-limited, a poll whose
If-None-Match value equals the current revision tag yields a bodyless 304
carrying that tag, and a poll with any other or absent If-None-Match value
yields the full status body together with an ETag equal to the current tag.
(Every record in the store has a nonempty quoted tag, hence the
`rc.etag ≠ ""` hypothesis.) -/
theorem c8_conditional_poll (now : ℚ) (rc : ReviewCase) (rl : Option RLEntry)
    (hetag : rc.etag ≠ "")
    (hallowed : (check_rate_limit now rl).2.allowed = true) :
    poll_status now (some rc.etag) (some rc) rl
      = (.notModified rc.etag, some (check_rate_limit now rl).1) ∧
    (∀ inm, inm ≠ some rc.etag →
      poll_status now inm (some rc) rl
        = (.ok (poll_body rc) rc.etag, some (check_rate_limit now rl).1)) := by
  have hmatch : inm_matches (some rc.etag) rc.etag = true := by
    simp [inm_matches, hetag]
  constructor
  · simp [poll_status, hallowed, hmatch]
  · intro inm hne
    have hm : inm_matches inm rc.etag = false := by
      cases inm with
      | none => rfl
      | some s =>
        have hs : (s == rc.etag) = false := by
          rw [beq_eq_false_iff_ne]
          intro h
          exact hne (by rw [h])
        simp [inm_matches, hs]
    simp [poll_status, hallowed, hm]

/-- Witness for C8 at a concrete input: polling a fresh case with its own
tag gives 304; polling without a validator gives the full body. -/
theorem c8_conditional_poll_witness :
    poll_status 0 (some sampleCase.etag) (some sampleCase) none
      = (.notModified sampleCase.etag, some (check_rate_limit 0 none).1) ∧
    poll_status 0 none (some sampleCase) none
      = (.ok (poll_body sampleCase) sampleCase.etag,
         some (check_rate_limit 0 none).1) :=
  ⟨(c8_conditional_poll 0 sampleCase none (by decide) (by decide)).1,
   (c8_conditional_poll 0 sampleCase none (by decide) (by decide)).2
      none (by decide)⟩

/-- C10: every poll on an existing case runs the rate-limit check — which
increments the window counter by one — before the conditional-read test,
whatever the outcome: the stored entry is always the post-increment one,
over-limit polls get 429 even when the validator matches, and matching
polls under the limit get 304 while still having consumed quota. -/
theorem c10_poll_counts_all_requests (now : ℚ) (inm : Option String)
    (rc : ReviewCase) (rl : Option RLEntry) :
    (poll_status now inm (some rc) rl).2 = some (check_rate_limit now rl).1 ∧
    ((check_rate_limit now rl).1.count
      = match rl with
        | none => 1
        | some e => if now > e.reset_at then 1 else e.count + 1) ∧
    ((check_rate_limit now rl).2.allowed = false →
      poll_status now inm (some rc) rl
        = (.rateLimited, some (check_rate_limit now rl).1)) ∧
    ((check_rate_limit now rl).2.allowed = true →
      inm_matches inm rc.etag = true →
      poll_status now inm (some rc) rl
        = (.notModified rc.etag, some (check_rate_limit now rl).1)) := by
  refine ⟨?_, ?_, ?_, ?_⟩
  · by_cases ha : (check_rate_limit now rl).2.allowed
    · by_cases hm : inm_matches inm rc.etag <;> simp [poll_status, ha, hm]
    · simp [poll_status, ha]
  · cases rl with
    | none => rfl
    | some e =>
      by_cases h : now > e.reset_at <;> simp [check_rate_limit, h]
  · intro ha
    simp [poll_status, ha]
  · intro ha hm
    simp [poll_status, ha, hm]

/-- Witness for C10 at a concrete input: with the window already at 60
requests, a poll whose validator matches the current tag is answered 429,
and its count still advanced to 61; with no window yet, the same matching
poll is answered 304 and the count is 1. -/
theorem c10_poll_counts_all_requests_witness :
    poll_status 50 (some sampleCase.etag) (some sampleCase)
        (some ⟨60, 100⟩)
      = (.rateLimited, some (check_rate_limit 50 (some ⟨60, 100⟩)).1) ∧
    (poll_status 50 (some sampleCase.etag) (some sampleCase)
        (some ⟨60, 100⟩)).2 = some (check_rate_limit 50 (some ⟨60, 100⟩)).1 ∧
    poll_status 0 (some sampleCase.etag) (some sampleCase) none
      = (.notModified sampleCase.etag, some (check_rate_limit 0 none).1) :=
  ⟨(c10_poll_counts_all_requests 50 (some sampleCase.etag) sampleCase
      (some ⟨60, 100⟩)).2.2.1 (by decide),
   (c10_poll_counts_all_requests 50 (some sampleCase.etag) sampleCase
      (some ⟨60, 100⟩)).1,
   (c10_poll_counts_all_requests 0 (some sampleCase.etag) sampleCase
      none).2.2.2 (by decide) (by decide)⟩

/-! ### C3: the revision tag determines (version, status)

The tag `"v{version}-{status}"` can be decoded: the decimal digits sit
between the fixed `"v` prefix and the first `-`, and no digit character and
no status name contains a `-`. -/

/-- Reads a decimal digit string back into the number it denotes. -/
def decodeDigits (cs : List Char) : Nat :=
  cs.foldl (fun acc c => 10 * acc + (c.toNat - 48)) 0

/-- The numeric value of a decimal digit character. -/
theorem digitChar_toNat_sub : ∀ d, d < 10 → (Nat.digitChar d).toNat - 48 = d := by
  decide

/-- No decimal digit character is a dash. -/
theorem digitChar_ne_dash : ∀ d, d < 10 → Nat.digitChar d ≠ '-' := by
  decide

/-- Decoding inverts the digit rendering (with sufficient fuel). -/
theorem decode_natReprAux :
    ∀ (fuel n : Nat), n ≤ fuel → decodeDigits (natReprAux fuel n) = n := by
  intro fuel
  induction fuel with
  | zero =>
    intro n hn
    interval_cases n
    rfl
  | succ fuel ih =>
    intro n hn
    by_cases h0 : n = 0
    · subst h0
      rfl
    · have hdiv : n / 10 ≤ fuel := by
        have := Nat.div_lt_self (Nat.pos_of_ne_zero h0) (by norm_num : 1 < 10)
        omega
      have hmod : n % 10 < 10 := Nat.mod_lt _ (by norm_num)
      unfold natReprAux
      rw [if_neg h0]
      unfold decodeDigits
      rw [List.foldl_append]
      have hpre : List.foldl (fun acc c => 10 * acc + (c.toNat - 48)) 0
          (natReprAux fuel (n / 10)) = n / 10 := ih (n / 10) hdiv
      rw [hpre]
      simp only [List.foldl_cons, List.foldl_nil]
      rw [digitChar_toNat_sub (n % 10) hmod]
      have := Nat.div_add_mod n 10
      omega

/-- Decoding inverts the Python decimal rendering. -/
theorem decode_natRepr (n : Nat) : decodeDigits (natRepr n).data = n := by
  by_cases h0 : n = 0
  · subst h0
    rfl
  · unfold natRepr
    rw [if_neg h0]
    exact decode_natReprAux n n le_rfl

/-- Every character of the digit rendering is a decimal digit character. -/
theorem mem_natReprAux :
    ∀ (fuel n : Nat) (c : Char), c ∈ natReprAux fuel n →
      ∃ d, d < 10 ∧ c = Nat.digitChar d := by
  intro fuel
  induction fuel with
  | zero =>
    intro n c hc
    simp [natReprAux] at hc
  | succ fuel ih =>
    intro n c hc
    unfold natReprAux at hc
    by_cases h0 : n = 0
    · rw [if_pos h0] at hc
      simp at hc
    · rw [if_neg h0] at hc
      rcases List.mem_append.mp hc with hc | hc
      · exact ih (n / 10) c hc
      · refine ⟨n % 10, Nat.mod_lt _ (by norm_num), ?_⟩
        simpa using hc

/-- The decimal rendering never contains a dash. -/
theorem natRepr_no_dash (n : Nat) : ∀ c ∈ (natRepr n).data, c ≠ '-' := by
  intro c hc
  unfold natRepr at hc
  by_cases h0 : n = 0
  · rw [if_pos h0] at hc
    simp at hc
    rw [hc]
    decide
  · rw [if_neg h0] at hc
    obtain ⟨d, hd, rfl⟩ := mem_natReprAux n n c hc
    exact digitChar_ne_dash d hd

/-- A list with a single marked element splits uniquely at the marker. -/
theorem append_mark_inj :
    ∀ (l1 l2 m1 m2 : List Char), (∀ c ∈ l1, c ≠ '-') → (∀ c ∈ l2, c ≠ '-') →
      l1 ++ '-' :: m1 = l2 ++ '-' :: m2 → l1 = l2 ∧ m1 = m2 := by
  intro l1
  induction l1 with
  | nil =>
    intro l2 m1 m2 h1 h2 h
    cases l2 with
    | nil => simpa using h
    | cons b bs =>
      simp only [List.nil_append, List.cons_append, List.cons.injEq] at h
      exact absurd h.1.symm (h2 b (by simp))
  | cons a as ih =>
    intro l2 m1 m2 h1 h2 h
    cases l2 with
    | nil =>
      simp only [List.nil_append, List.cons_append, List.cons.injEq] at h
      exact absurd h.1 (h1 a (by simp))
    | cons b bs =>
      simp only [List.cons_append, List.cons.injEq] at h
      obtain ⟨rfl, h⟩ := h
      obtain ⟨e1, e2⟩ := ih bs m1 m2 (fun c hc => h1 c (by simp [hc]))
        (fun c hc => h2 c (by simp [hc])) h
      exact ⟨by rw [e1], e2⟩

/-- No status name contains a dash. -/
theorem statusStr_no_dash : ∀ (s : Status), ∀ c ∈ (statusStr s).data, c ≠ '-' := by
  decide

/-- The status name (with the closing quote) determines the status. -/
theorem statusStr_quote_inj :
    ∀ s1 s2 : Status,
      (statusStr s1).data ++ ['"'] = (statusStr s2).data ++ ['"'] → s1 = s2 := by
  decide

/-- The character content of a revision tag. -/
theorem etagOf_data (v : Nat) (s : Status) :
    (etagOf v s).data
      = '"' :: 'v' :: ((natRepr v).data ++ '-' :: ((statusStr s).data ++ ['"'])) := by
  show (((("\"v" ++ natRepr v) ++ "-") ++ statusStr s) ++ "\"").data = _
  simp [String.data_append]

/-- Revision tags are never the empty string, so the nonemptiness
hypothesis of the conditional-poll theorem holds for every stored record:
both the creation tag and every tag `transition` writes have this shape. -/
theorem etagOf_ne_empty (v : Nat) (s : Status) : etagOf v s ≠ "" := by
  intro h
  have hd := congrArg String.data h
  rw [etagOf_data] at hd
  simp at hd

/-- Two equal revision tags come from the same (version, status) pair. -/
theorem etagOf_inj {v1 v2 : Nat} {s1 s2 : Status}
    (h : etagOf v1 s1 = etagOf v2 s2) : v1 = v2 ∧ s1 = s2 := by
  have hd := congrArg String.data h
  rw [etagOf_data, etagOf_data] at hd
  simp only [List.cons.injEq, true_and] at hd
  obtain ⟨h1, h2⟩ := append_mark_inj _ _ _ _ (natRepr_no_dash v1)
    (natRepr_no_dash v2) hd
  refine ⟨?_, statusStr_quote_inj s1 s2 h2⟩
  have := congrArg decodeDigits h1
  rw [decode_natRepr, decode_natRepr] at this
  exact this

/-- C3: the revision tag is a pure function of (version, status) — both of
the stored tags the server ever writes are exactly `etagOf version status`
— and on positive versions distinct (version, status) pairs always get
distinct tags. -/
theorem c3_etag_pure_injective :
    (∀ v s, etagOf v s = etagOf v s) ∧
    (∀ cid ty pr th ctx ca ea,
      (create_demo_record cid ty pr th ctx ca ea).etag
        = etagOf (create_demo_record cid ty pr th ctx ca ea).version
                 (create_demo_record cid ty pr th ctx ca ea).status) ∧
    (∀ now rc ns rc', transition now rc ns = .ok rc' →
      rc'.etag = etagOf rc'.version rc'.status) ∧
    (∀ v1 s1 v2 s2, 0 < v1 → 0 < v2 → (v1, s1) ≠ (v2, s2) →
      etagOf v1 s1 ≠ etagOf v2 s2) := by
  refine ⟨fun v s => rfl,
          fun _ _ _ _ _ _ _ =>
            (by decide : ("\"v1-pending\"" : String) = etagOf 1 .pending),
          fun _ _ _ _ h => transition_ok_etag h,
          fun v1 s1 v2 s2 _ _ hne heq => hne ?_⟩
  obtain ⟨hv, hs⟩ := etagOf_inj heq
  rw [hv, hs]

/-- Witness for C3 at a concrete input: versions 1 and 2 of a pending case
carry different tags. -/
theorem c3_etag_pure_injective_witness :
    (0 < 1 ∧ 0 < 2 ∧ ((1, Status.pending) ≠ (2, Status.pending))) ∧
    etagOf 1 .pending ≠ etagOf 2 .pending :=
  ⟨⟨by decide, by decide, by decide⟩,
   c3_etag_pure_injective.2.2.2 1 .pending 2 .pending (by decide) (by decide)
     (by decide)⟩

/-! ### C9: the result-write is not tied to entering `completed`

The handler writes `rc["result"]` (and `rc["responded_by"]`) into the stored
record before calling `transition(rc, "completed")`.  On a case that is
still `pending`, that transition is not permitted, so the call raises — yet
the write has already happened.  The evaluation below exhibits the
divergence from the spec sentence that `result` is set exactly once, on
entering `completed`. -/

/-- C9 fails on the code: submitting a valid response to a still-pending
case leaves the stored record with `result` set while its status is still
`pending` (the handler answers with the escaped invalid-transition error),
and a second submission overwrites `result` again — so `result` is written
without the case entering `completed`, and more than once. -/
theorem c9_result_write_divergence :
    (submit_response (fun bs => bs) "T1" (some sampleCase) "tok"
        (some "select") "{}").1
      = .internalError ⟨.pending, .completed⟩ ∧
    ((submit_response (fun bs => bs) "T1" (some sampleCase) "tok"
        (some "select") "{}").2.map (fun rc => (rc.status, rc.result)))
      = some (.pending, some ⟨"select", "{}"⟩) ∧
    (((submit_response (fun bs => bs) "T1" (some sampleCase) "tok"
        (some "select") "{}").2.bind (fun rc1 =>
          (submit_response (fun bs => bs) "T2" (some rc1) "tok"
            (some "retry") "{}").2)).map (fun rc => (rc.status, rc.result)))
      = some (.pending, some ⟨"retry", "{}"⟩) := by
  decide

end HITL
